import Mathlib

/-!
Verification development for the Common-Strange publishing backend's
article discovery ranking engine: search scoring and ranking
(`backend/content/views.py`, `ArticleSearchView.get_queryset`), the
trending endpoint and event ingestion (`backend/content/events_views.py`),
and the short-TTL result cache both share.

Conventions of the embedding:
  * Timestamps are epoch seconds (`Int`); `now` is the request time.
  * Database-side score arithmetic (float expressions built from
    `ts_rank_cd`, `similarity`, `Ln`, …) is modelled over `ℚ`, with the
    store's text-search primitives (`SearchRank`, `TrigramSimilarity`) and
    the natural logarithm taken as parameters in a `Signals` record: the
    code delegates those to the store and only combines their outputs.
  * A SQL `ORDER BY` lists its sort keys but leaves the relative order of
    rows that tie on every key unspecified, so a ranked query result is
    modelled as a relation: any permutation of the candidate rows that is
    pairwise consistent with the sort keys is an admissible output.
  * The Django cache (`django.core.cache`) is an external collaborator;
    an entry written with `cache.set(key, v, timeout)` at time `t` is
    returned by `cache.get(key)` until `t + timeout`.
-/

namespace CommonStrange

/-- `ArticleStatus` choices from `backend/content/models.py`. -/
inductive ArticleStatus
  | draft
  | in_review
  | scheduled
  | published
  | archived
deriving DecidableEq, Repr

/-- The fields of `content.models.Article` that the ranking engine reads.
Body text, taxonomy and the `search_tsv` vector only reach the score
through the store primitives held in `Signals`. -/
structure Article where
  id : Nat
  slug : String
  title : String
  status : ArticleStatus
  published_at : Option Int
  is_editor_pick : Bool
deriving DecidableEq, Repr

/-- `EventKind` from `backend/content/events.py`. -/
inductive EventKind
  | pageview
  | read
deriving DecidableEq, Repr

/-- The fields of `content.models.Event` that the ranking engine reads
(`kind`, `article`, `created_at`).  The remaining payload columns
(`path`, `referrer`, `user_agent`, `read_ratio`, `duration_ms`) never
influence ranking or ingestion acceptance and are not modelled. -/
structure Event where
  article_id : Nat
  kind : EventKind
  created_at : Int
deriving DecidableEq, Repr

/-- Store-side text primitives the view delegates to Postgres:
`SearchRank(search_tsv, SearchQuery(q))`, `TrigramSimilarity("title", q)`
and the SQL `Ln` function. -/
structure Signals where
  base_rank : String → Article → ℚ
  trigram_score : String → Article → ℚ
  ln : ℚ → ℚ

/-- `views_24h`: `Count("events", filter=Q(events__kind=PAGEVIEW,
events__created_at__gte=since))` with `since = now - 24h`
(`views.py` line 253 and `events_views.py` line 135). -/
def views_24h (events : List Event) (aid : Nat) (now : Int) : Nat :=
  (events.filter fun e =>
    e.kind == EventKind.pageview && e.article_id == aid
      && decide (now - 86400 ≤ e.created_at)).length

/-- `editor_pick_boost`: `Case(When(is_editor_pick=True, then=0.15),
default=0.0)` (`views.py` lines 246-250). -/
def editor_pick_boost (a : Article) : ℚ :=
  if a.is_editor_pick then 0.15 else 0

/-- `trending_boost`: `Ln(1.0 + views_24h) * 0.05` (`views.py` lines 257-260). -/
def trending_boost (ln : ℚ → ℚ) (views : Nat) : ℚ :=
  ln (1 + (views : ℚ)) * 0.05

/-- `recency_boost`: `0.0` when `published_at` is null, otherwise
`0.2 / (1.0 + age_seconds / 86400.0)` where `age_seconds` is the epoch
length of `age(now(), published_at)` (`views.py` lines 264-273). -/
def recency_boost (now : Int) (a : Article) : ℚ :=
  match a.published_at with
  | none => 0
  | some p => 0.2 / (1 + ((now - p : Int) : ℚ) / 86400)

/-- The annotated `score` of `views.py` lines 288-292:
`base_rank + trigram_score * 0.3 + editor_pick_boost + trending_boost
+ recency_boost`. -/
def score (sg : Signals) (q : String) (events : List Event) (now : Int)
    (a : Article) : ℚ :=
  sg.base_rank q a + sg.trigram_score q a * 0.3 + editor_pick_boost a
    + trending_boost sg.ln (views_24h events a.id now) + recency_boost now a

/-- Scoring formula transcribed from the spec (§4.2), for comparison with
the code's `score`:
`lexical + 0.3 * fuzzy + (0.15 if promoted else 0.0)
 + 0.05 * ln(1 + popularity_count_24h) + recency_boost` with
`recency_boost = 0` when `published_at` is null and
`0.2 / (1 + age_seconds/86400)` otherwise. -/
def spec_score (ln : ℚ → ℚ) (lexical fuzzy : ℚ) (promoted : Bool)
    (popularity : Nat) (published_at : Option Int) (now : Int) : ℚ :=
  lexical + 0.3 * fuzzy + (if promoted then 0.15 else 0)
    + 0.05 * ln (1 + (popularity : ℚ))
    + match published_at with
      | none => 0
      | some p => 0.2 / (1 + ((now - p : Int) : ℚ) / 86400)

/-- `Article.objects.filter(status=ArticleStatus.PUBLISHED)`. -/
def publishedArticles (articles : List Article) : List Article :=
  articles.filter fun a => a.status == ArticleStatus.published

/-- Candidate gate of `views.py` line 295:
`filter(Q(base_rank__gte=0.05) | Q(trigram_score__gte=0.3))`. -/
def passes_filter (sg : Signals) (q : String) (a : Article) : Bool :=
  decide ((0.05 : ℚ) ≤ sg.base_rank q a)
    || decide ((0.3 : ℚ) ≤ sg.trigram_score q a)

/-- The candidate rows of the ranked search query: published articles that
pass the two-signal gate. -/
def searchCandidates (sg : Signals) (q : String) (articles : List Article) :
    List Article :=
  (publishedArticles articles).filter (passes_filter sg q)

/-- Comparison for `published_at DESC` in Postgres: descending order puts
NULLs first, so a null `published_at` sorts before (is "greater or equal
to") every value.  `pub_ge x y` says a row with `published_at = x` may
appear no later than one with `published_at = y`. -/
def pub_ge : Option Int → Option Int → Bool
  | none, _ => true
  | some _, none => false
  | some x, some y => decide (y ≤ x)

/-- `a` may precede `b` under `ORDER BY score DESC, published_at DESC`:
either `a` scores strictly higher, or the scores tie and `a`'s
`published_at` is no smaller in the DESC-NULLS-FIRST order. -/
def orderedBefore (sg : Signals) (q : String) (events : List Event)
    (now : Int) (a b : Article) : Bool :=
  decide (score sg q events now b < score sg q events now a)
    || (decide (score sg q events now a = score sg q events now b)
        && pub_ge a.published_at b.published_at)

/-- Admissible evaluations of the `ranked` queryset (`views.py` lines
279-298): any permutation of the candidates that is pairwise consistent
with `ORDER BY score DESC, published_at DESC`.  (`.distinct()` is a no-op
here: the aggregate annotation already yields one row per article.) -/
def IsSearchRanking (sg : Signals) (q : String) (events : List Event)
    (now : Int) (articles : List Article) (out : List Article) : Prop :=
  out.Perm (searchCandidates sg q articles)
    ∧ out.Pairwise fun a b => orderedBefore sg q events now a b = true

/-- One cache entry as written by `cache.set(key, value, timeout)` at
time `storedAt`. -/
structure CacheEntry (α : Type) where
  value : α
  storedAt : Int
  ttl : Int
deriving DecidableEq

/-- `cache.get(key)` at time `t`: the stored value while `t` is within
the entry's TTL window, a miss otherwise. -/
def cacheGet {α : Type} (e : Option (CacheEntry α)) (t : Int) : Option α :=
  match e with
  | none => none
  | some c => if t < c.storedAt + c.ttl then some c.value else none

/-- `cache.set(key, v, timeout)` at time `t`. -/
def cachePut {α : Type} (v : α) (t ttl : Int) : Option (CacheEntry α) :=
  some ⟨v, t, ttl⟩

/-- Search cache key (`views.py` line 224): `"search:v1:q=" + query.lower()`,
where `query` is the already-stripped `q` parameter. -/
def searchCacheKey (query : String) : String :=
  "search:v1:q=" ++ query.toLower

/-- State a search request runs against: the article table, the event
table, and the cache entry stored under this query's normalized key
(`searchCacheKey`; distinct normalized keys have independent entries). -/
structure SearchState where
  articles : List Article
  events : List Event
  cache : Option (CacheEntry (List Nat))

/-- Cache-hit path of `views.py` lines 226-235:
`qs.filter(pk__in=cached_ids)` (with `qs` already restricted to published
articles) reordered by position in `cached_ids` via the `Case` annotation.
Ids without a published row simply drop out. -/
def searchHitResult (articles : List Article) (cachedIds : List Nat) :
    List Article :=
  cachedIds.filterMap fun i => (publishedArticles articles).find? fun a => a.id == i

/-- Admissible results of `ArticleSearchView.get_queryset` (`views.py`
lines 212-304), given the stripped query.  `out` is the evaluated
queryset handed to the serializer, `cache2` the entry under the query's
key afterwards.
  * Empty query: `qs.order_by(...)[:0]`, i.e. no rows, cache untouched.
  * Cache hit (a non-empty cached list within TTL): the cached ids are
    rehydrated against currently-published rows, cache untouched.
  * Otherwise the ranked queryset is computed; `values_list("id")[:50]`
    is one evaluation (`r2`, whose first 50 ids are cached with a 60 s
    TTL) and the returned queryset is a second, independent evaluation
    (`r1`): ties on both sort keys may order differently in the two. -/
def IsSearchResult (sg : Signals) (st : SearchState) (now : Int)
    (query : String) (out : List Article)
    (cache2 : Option (CacheEntry (List Nat))) : Prop :=
  (query = "" ∧ out = [] ∧ cache2 = st.cache)
  ∨ (query ≠ "" ∧
      ((∃ ids, cacheGet st.cache now = some ids ∧ ids ≠ [] ∧
          out = searchHitResult st.articles ids ∧ cache2 = st.cache)
        ∨ ((cacheGet st.cache now = none ∨ cacheGet st.cache now = some []) ∧
            ∃ r1 r2, IsSearchRanking sg query st.events now st.articles r1 ∧
              IsSearchRanking sg query st.events now st.articles r2 ∧
              out = r1 ∧
              cache2 = cachePut ((r2.map Article.id).take 50) now 60)))

/-- `a` may precede `b` under the trending `ORDER BY views_24h DESC,
published_at DESC` (`events_views.py` line 141). -/
def trendBefore (events : List Event) (now : Int) (a b : Article) : Bool :=
  decide (views_24h events b.id now < views_24h events a.id now)
    || (decide (views_24h events a.id now = views_24h events b.id now)
        && pub_ge a.published_at b.published_at)

/-- Rows of the trending queryset before the limit slice: published
articles with a nonzero 24-hour pageview count
(`events_views.py` lines 130-140). -/
def trendingQualifying (articles : List Article) (events : List Event)
    (now : Int) : List Article :=
  (publishedArticles articles).filter fun a =>
    decide (0 < views_24h events a.id now)

/-- Admissible full orderings of the trending queryset before slicing. -/
def IsTrendingRanking (articles : List Article) (events : List Event)
    (now : Int) (full : List Article) : Prop :=
  full.Perm (trendingQualifying articles events now)
    ∧ full.Pairwise fun a b => trendBefore events now a b = true

/-- Value of a non-empty all-digit character run, `none` otherwise. -/
def digitsVal (cs : List Char) : Option Nat :=
  match cs with
  | [] => none
  | _ =>
    cs.foldl
      (fun acc? c =>
        acc?.bind fun acc =>
          if c.isDigit then some (acc * 10 + (c.toNat - 48)) else none)
      (some 0)

/-- Python `int(s)` on a decimal string: strips surrounding whitespace,
then an optional sign followed by a non-empty digit run; `none` models
the `ValueError` raised on anything else.  (Underscore digit grouping,
which CPython also accepts, never occurs in the inputs considered here.) -/
def pyParseInt (s : String) : Option Int :=
  let t := ((s.data.dropWhile Char.isWhitespace).reverse.dropWhile
    Char.isWhitespace).reverse
  match t with
  | [] => none
  | c :: rest =>
    if c == '-' then (digitsVal rest).map fun n => -(n : Int)
    else if c == '+' then (digitsVal rest).map fun n => (n : Int)
    else (digitsVal t).map fun n => (n : Int)

/-- `limit = min(int(request.query_params.get("limit", 10)), 20)`
(`events_views.py` line 128); `none` models the raised `ValueError`. -/
def trendingLimit (p : Option String) : Option Int :=
  (match p with
    | none => some 10
    | some s => pyParseInt s).map fun n => min n 20

/-- State a public trending request runs against: the cache entry is the
one under the fixed key `"public:trending:24h"` (`events_views.py` line
122). -/
structure TrendingState where
  articles : List Article
  events : List Event
  cache : Option (CacheEntry (List Nat))

/-- Outcome of `PublicTrendingView.get`: an identifier list (the `id`
fields of the serialized payload) plus the cache entry afterwards, or an
unhandled exception (`int` on a non-numeric limit, negative slicing). -/
inductive TrendingOutcome
  | ok (out : List Nat) (cache2 : Option (CacheEntry (List Nat)))
  | error
deriving DecidableEq

/-- Admissible behaviours of `PublicTrendingView.get` (`events_views.py`
lines 119-160).
  * Cache hit (`cached is not None`, checked before the limit is ever
    parsed): the cached list is returned verbatim, cache untouched.
  * Cache miss: the limit is parsed (`ValueError` escapes), a negative
    limit makes the queryset slice raise, otherwise the top
    `min(limit, 20)` rows of an admissible ordering are serialized,
    cached for 300 s, and returned. -/
def IsTrendingResult (st : TrendingState) (now : Int)
    (limitParam : Option String) (oc : TrendingOutcome) : Prop :=
  (∃ v, cacheGet st.cache now = some v ∧ oc = TrendingOutcome.ok v st.cache)
  ∨ (cacheGet st.cache now = none ∧
      ((trendingLimit limitParam = none ∧ oc = TrendingOutcome.error)
        ∨ ∃ l, trendingLimit limitParam = some l ∧
            ((l < 0 ∧ oc = TrendingOutcome.error)
              ∨ (0 ≤ l ∧
                  ∃ full, IsTrendingRanking st.articles st.events now full ∧
                    oc = TrendingOutcome.ok ((full.take l.toNat).map Article.id)
                      (cachePut ((full.take l.toNat).map Article.id) now 300)))))

/-- `Article.objects.get`-style published lookup used by event ingestion:
`get_object_or_404(Article, slug=..., status=PUBLISHED)`
(`events_views.py` lines 37 and 60).  `Article.slug` is unique, so
`find?` over the table is the lookup. -/
def findPublishedBySlug (articles : List Article) (slug : String) :
    Option Article :=
  articles.find? fun a => a.slug == slug && a.status == ArticleStatus.published

/-- Result of an ingestion call: whether it was accepted, and the event
table afterwards. -/
structure IngestResult where
  accepted : Bool
  events : List Event
deriving DecidableEq

/-- `PageviewEventView.post` (`events_views.py` lines 33-48) for a valid
payload: 404 and no write unless the slug names a published article,
otherwise one `pageview` event is appended (`created_at` is
`auto_now_add`). -/
def recordPageview (articles : List Article) (events : List Event)
    (slug : String) (now : Int) : IngestResult :=
  match findPublishedBySlug articles slug with
  | none => ⟨false, events⟩
  | some a => ⟨true, events ++ [⟨a.id, EventKind.pageview, now⟩]⟩

/-- `ReadEventView.post` (`events_views.py` lines 56-71) for a valid
payload: same gate, appending one `read` event. -/
def recordRead (articles : List Article) (events : List Event)
    (slug : String) (now : Int) : IngestResult :=
  match findPublishedBySlug articles slug with
  | none => ⟨false, events⟩
  | some a => ⟨true, events ++ [⟨a.id, EventKind.read, now⟩]⟩

/-! Concrete fixtures used to instantiate the theorems on closed inputs. -/

/-- Concrete store signals: unit lexical rank, zero trigram similarity,
and a zero logarithm primitive. -/
def wSignals : Signals :=
  { base_rank := fun _ _ => 1
    trigram_score := fun _ _ => 0
    ln := fun _ => 0 }

/-- One published article with no `published_at` timestamp. -/
def wArticle : Article :=
  { id := 1, slug := "ai-article", title := "AI",
    status := ArticleStatus.published, published_at := none,
    is_editor_pick := false }

/-- Search state holding just `wArticle`, no events, empty cache. -/
def wSt : SearchState := ⟨[wArticle], [], none⟩

lemma wCandidates_eq : searchCandidates wSignals "ai" [wArticle] = [wArticle] := by
  norm_num [searchCandidates, publishedArticles, passes_filter, wSignals, wArticle]

lemma wRanking : IsSearchRanking wSignals "ai" [] 0 [wArticle] [wArticle] := by
  constructor
  · rw [wCandidates_eq]
  · simp

lemma wSearchResult :
    IsSearchResult wSignals wSt 0 "ai" [wArticle] (cachePut [1] 0 60) := by
  refine Or.inr ⟨by decide, Or.inr ⟨Or.inl rfl, [wArticle], [wArticle],
    wRanking, wRanking, rfl, rfl⟩⟩

/-- Claim C1: for every search request with a non-empty query and every
candidate published article, the fused score equals
`lexical_relevance + 0.3 * fuzzy_similarity + (0.15 if promoted else 0)
+ 0.05 * ln(1 + pageview count in the trailing 24 hours) + recency_boost`,
where `recency_boost` is `0` for a null `published_at` and
`0.2 / (1 + age_seconds / 86400)` otherwise. -/
theorem search_score_matches_spec_formula (sg : Signals) (q : String)
    (events : List Event) (now : Int) (a : Article)
    (hq : q ≠ "") (ha : a.status = ArticleStatus.published) :
    score sg q events now a
      = spec_score sg.ln (sg.base_rank q a) (sg.trigram_score q a)
          a.is_editor_pick (views_24h events a.id now) a.published_at now := by
  cases h : a.published_at <;>
    simp only [score, spec_score, editor_pick_boost, trending_boost,
      recency_boost, h] <;>
    ring

/-- Closed instance of `search_score_matches_spec_formula` at `wArticle`. -/
theorem search_score_matches_spec_formula_witness :
    score wSignals "ai" [] 0 wArticle
      = spec_score wSignals.ln (wSignals.base_rank "ai" wArticle)
          (wSignals.trigram_score "ai" wArticle) wArticle.is_editor_pick
          (views_24h [] wArticle.id 0) wArticle.published_at 0 :=
  search_score_matches_spec_formula wSignals "ai" [] 0 wArticle
    (by decide) rfl

/-- Claim C2 amended: on a search request with a non-empty query computed
on a cache miss, a published candidate article appears in the result if
and only if its lexical relevance is at least `0.05` or its trigram title
similarity is at least `0.3` (an article meeting neither threshold is
absent regardless of the additive boosts); on a cache-hit request only
the at most 50 cached identifiers are rehydrated, so a gate-passing
article beyond the cached prefix can be absent. -/
theorem search_membership_iff_signal_gate (sg : Signals) (st : SearchState)
    (now : Int) (q : String) (out : List Article)
    (cache2 : Option (CacheEntry (List Nat)))
    (hq : q ≠ "") (hmiss : cacheGet st.cache now = none)
    (hres : IsSearchResult sg st now q out cache2)
    (a : Article) (hmem : a ∈ st.articles)
    (hpub : a.status = ArticleStatus.published) :
    a ∈ out
      ↔ ((0.05 : ℚ) ≤ sg.base_rank q a ∨ (0.3 : ℚ) ≤ sg.trigram_score q a) := by
  rcases hres with ⟨hq0, _, _⟩ | ⟨_, hrest⟩
  · exact absurd hq0 hq
  · rcases hrest with ⟨ids, hids, _⟩ | ⟨_, r1, r2, hr1, _, hout, _⟩
    · rw [hmiss] at hids
      exact absurd hids (by simp)
    · subst hout
      rw [hr1.1.mem_iff]
      simp [searchCandidates, publishedArticles, passes_filter,
        List.mem_filter, hmem, hpub]

/-- Closed instance of `search_membership_iff_signal_gate` at `wArticle`. -/
theorem search_membership_iff_signal_gate_witness :
    wArticle ∈ [wArticle]
      ↔ ((0.05 : ℚ) ≤ wSignals.base_rank "ai" wArticle
          ∨ (0.3 : ℚ) ≤ wSignals.trigram_score "ai" wArticle) :=
  search_membership_iff_signal_gate wSignals wSt 0 "ai" [wArticle]
    (cachePut [1] 0 60) (by decide) rfl wSearchResult wArticle
    (by simp [wSt]) rfl

lemma pub_ge_antisymm {x y : Option Int} (h1 : pub_ge x y = true)
    (h2 : pub_ge y x = true) : x = y := by
  cases x <;> cases y <;> simp_all [pub_ge] <;> omega

/-- Two lists that are permutations of each other and both pairwise
consistent with a relation that is antisymmetric on the members of the
first are equal. -/
lemma eq_of_perm_of_pairwise {α : Type} {r : α → α → Prop} :
    ∀ {l₁ l₂ : List α}, l₁.Perm l₂ → l₁.Pairwise r → l₂.Pairwise r →
      (∀ a ∈ l₁, ∀ b ∈ l₁, r a b → r b a → a = b) → l₁ = l₂ := by
  intro l₁
  induction l₁ with
  | nil => intro l₂ hp _ _ _; exact hp.nil_eq
  | cons a t ih =>
    intro l₂ hp h1 h2 hanti
    cases l₂ with
    | nil =>
      exact absurd hp.symm.nil_eq (by simp)
    | cons b s =>
      rcases List.pairwise_cons.mp h1 with ⟨h1a, h1t⟩
      rcases List.pairwise_cons.mp h2 with ⟨h2b, h2s⟩
      by_cases hab : a = b
      · subst hab
        have hts : t.Perm s := hp.cons_inv
        have ht := ih hts h1t h2s fun x hx y hy =>
          hanti x (List.mem_cons_of_mem _ hx) y (List.mem_cons_of_mem _ hy)
        rw [ht]
      · have hbt : b ∈ t := by
          rcases List.mem_cons.mp (hp.symm.subset (List.mem_cons_self b s))
            with h | h
          · exact absurd h.symm hab
          · exact h
        have has : a ∈ s := by
          rcases List.mem_cons.mp (hp.subset (List.mem_cons_self a t))
            with h | h
          · exact absurd h hab
          · exact h
        exact absurd
          (hanti a (List.mem_cons_self a t) b (List.mem_cons_of_mem a hbt)
            (h1a b hbt) (h2b a has)) hab

/-- `orderedBefore` is antisymmetric on articles whose (score,
`published_at`) key is distinctive, so an admissible search ordering is
unique when no two candidates tie on both keys. -/
lemma searchRanking_unique (sg : Signals) (q : String) (events : List Event)
    (now : Int) (articles : List Article) (out1 out2 : List Article)
    (hkeys : ∀ a ∈ searchCandidates sg q articles,
      ∀ b ∈ searchCandidates sg q articles,
        score sg q events now a = score sg q events now b →
        a.published_at = b.published_at → a = b)
    (h1 : IsSearchRanking sg q events now articles out1)
    (h2 : IsSearchRanking sg q events now articles out2) : out1 = out2 := by
  apply eq_of_perm_of_pairwise (h1.1.trans h2.1.symm) h1.2 h2.2
  intro a ha b hb rab rba
  have ha' := h1.1.subset ha
  have hb' := h1.1.subset hb
  simp only [orderedBefore, Bool.or_eq_true, Bool.and_eq_true,
    decide_eq_true_eq] at rab rba
  rcases rab with hlt | ⟨heq, hge⟩
  · rcases rba with hlt' | ⟨heq', _⟩
    · exact absurd hlt' (lt_asymm hlt)
    · exact absurd hlt (by rw [heq']; exact lt_irrefl _)
  · rcases rba with hlt' | ⟨_, hge'⟩
    · exact absurd hlt' (by rw [heq]; exact lt_irrefl _)
    · exact hkeys a ha' b hb' heq (pub_ge_antisymm hge hge')

/-! Fixtures for the ordering counterexamples: `cA1`, `cA2` tie on both
sort keys; `cAN` (null `published_at`) and `cAS` tie on score only. -/

def cA1 : Article :=
  ⟨1, "t1", "T", ArticleStatus.published, none, false⟩

def cA2 : Article :=
  ⟨2, "t2", "T", ArticleStatus.published, none, false⟩

def cAN : Article :=
  ⟨3, "t3", "T", ArticleStatus.published, none, false⟩

def cAS : Article :=
  ⟨4, "t4", "T", ArticleStatus.published, some 0, false⟩

/-- Signals making `cAN` and `cAS` tie on score: the recency boost of
`cAS` (0.2 at age 0) is offset by a lower lexical rank. -/
def cSigN : Signals :=
  { base_rank := fun _ a =>
      match a.published_at with
      | none => 1
      | some _ => 0.8
    trigram_score := fun _ _ => 0
    ln := fun _ => 0 }

/-- Under `wSignals`, every non-promoted article with a null
`published_at` scores exactly 1. -/
lemma score_wSignals_null (q : String) (ev : List Event) (now : Int)
    (a : Article) (hp : a.published_at = none)
    (he : a.is_editor_pick = false) :
    score wSignals q ev now a = 1 := by
  norm_num [score, wSignals, editor_pick_boost, he, trending_boost,
    recency_boost, hp]

lemma orderedBefore_null (q : String) (ev : List Event) (now : Int)
    (a b : Article) (hpa : a.published_at = none)
    (hea : a.is_editor_pick = false) (hpb : b.published_at = none)
    (heb : b.is_editor_pick = false) :
    orderedBefore wSignals q ev now a b = true := by
  simp only [orderedBefore, score_wSignals_null q ev now a hpa hea,
    score_wSignals_null q ev now b hpb heb, hpa, hpb]
  norm_num [pub_ge]

lemma cPairCandidates :
    searchCandidates wSignals "ai" [cA1, cA2] = [cA1, cA2] := by
  norm_num [searchCandidates, publishedArticles, passes_filter, wSignals,
    cA1, cA2]

lemma score_cAN : score cSigN "ai" [] 0 cAN = 1 := by
  norm_num [score, cSigN, cAN, views_24h, editor_pick_boost,
    trending_boost, recency_boost]

lemma score_cAS : score cSigN "ai" [] 0 cAS = 1 := by
  norm_num [score, cSigN, cAS, views_24h, editor_pick_boost,
    trending_boost, recency_boost]

lemma cOrderedNS : orderedBefore cSigN "ai" [] 0 cAN cAS = true := by
  simp only [orderedBefore, score_cAN, score_cAS]
  norm_num [pub_ge, cAN, cAS]

lemma cOrderedSN : orderedBefore cSigN "ai" [] 0 cAS cAN = false := by
  simp only [orderedBefore, score_cAN, score_cAS]
  norm_num [pub_ge, cAN, cAS]

lemma cPairwise12 : List.Pairwise
    (fun a b => orderedBefore wSignals "ai" [] 0 a b = true) [cA1, cA2] := by
  refine List.Pairwise.cons ?_ (by simp)
  intro b hb
  simp only [List.mem_singleton] at hb
  subst hb
  exact orderedBefore_null "ai" [] 0 cA1 cA2 rfl rfl rfl rfl

lemma cPairwise21 : List.Pairwise
    (fun a b => orderedBefore wSignals "ai" [] 0 a b = true) [cA2, cA1] := by
  refine List.Pairwise.cons ?_ (by simp)
  intro b hb
  simp only [List.mem_singleton] at hb
  subst hb
  exact orderedBefore_null "ai" [] 0 cA2 cA1 rfl rfl rfl rfl

lemma cRanking12 : IsSearchRanking wSignals "ai" [] 0 [cA1, cA2] [cA1, cA2] :=
  ⟨by rw [cPairCandidates], cPairwise12⟩

lemma cRanking21 : IsSearchRanking wSignals "ai" [] 0 [cA1, cA2] [cA2, cA1] :=
  ⟨by rw [cPairCandidates]; exact List.Perm.swap cA1 cA2 [], cPairwise21⟩

/-- Claim C3 fails on the code: with two candidates fully tied on score
and `published_at`, both relative orders are admissible evaluations of
the ranked queryset (no identifier tie-break, no determinism), and with
a score tie between a null and a non-null `published_at` the null row is
forced first (DESC puts NULLs first, not last). -/
theorem search_order_tiebreak_counterexample :
    IsSearchRanking wSignals "ai" [] 0 [cA1, cA2] [cA1, cA2]
    ∧ IsSearchRanking wSignals "ai" [] 0 [cA1, cA2] [cA2, cA1]
    ∧ ([cA2, cA1] : List Article) ≠ [cA1, cA2]
    ∧ cA1.id < cA2.id
    ∧ IsSearchRanking cSigN "ai" [] 0 [cAN, cAS] [cAN, cAS]
    ∧ ¬ IsSearchRanking cSigN "ai" [] 0 [cAN, cAS] [cAS, cAN] := by
  have hcandN : searchCandidates cSigN "ai" [cAN, cAS] = [cAN, cAS] := by
    norm_num [searchCandidates, publishedArticles, passes_filter, cSigN,
      cAN, cAS]
  have hpairNS : List.Pairwise
      (fun a b => orderedBefore cSigN "ai" [] 0 a b = true) [cAN, cAS] := by
    refine List.Pairwise.cons ?_ (by simp)
    intro b hb
    simp only [List.mem_singleton] at hb
    subst hb
    exact cOrderedNS
  refine ⟨cRanking12, cRanking21,
    by simp [cA1, cA2], by simp [cA1, cA2],
    ⟨by rw [hcandN], hpairNS⟩, ?_⟩
  rintro ⟨-, hpair⟩
  have hbad : orderedBefore cSigN "ai" [] 0 cAS cAN = true :=
    (List.pairwise_cons.mp hpair).1 cAN (by simp)
  rw [cOrderedSN] at hbad
  exact absurd hbad (by simp)

/-- Claim C3 amended: search results are ordered by score descending,
then `published_at` descending with nulls first; the code applies no
identifier tie-break, so repeated scoring is guaranteed to reproduce the
order only when no two candidates tie on both score and `published_at`
(in which case the admissible ordering is unique). -/
theorem search_order_unique_of_distinct_keys (sg : Signals) (q : String)
    (events : List Event) (now : Int) (articles : List Article)
    (out1 out2 : List Article)
    (hkeys : ∀ a ∈ searchCandidates sg q articles,
      ∀ b ∈ searchCandidates sg q articles,
        score sg q events now a = score sg q events now b →
        a.published_at = b.published_at → a = b)
    (h1 : IsSearchRanking sg q events now articles out1)
    (h2 : IsSearchRanking sg q events now articles out2) : out1 = out2 :=
  searchRanking_unique sg q events now articles out1 out2 hkeys h1 h2

/-- Closed instance of `search_order_unique_of_distinct_keys` on a
one-article candidate set. -/
theorem search_order_unique_of_distinct_keys_witness :
    ([wArticle] : List Article) = [wArticle] :=
  search_order_unique_of_distinct_keys wSignals "ai" [] 0 [wArticle]
    [wArticle] [wArticle]
    (by
      intro a ha b hb _ _
      rw [wCandidates_eq] at ha hb
      simp only [List.mem_singleton] at ha hb
      rw [ha, hb])
    wRanking wRanking

/-! Oversized fixture: 51 published candidates that all tie on both sort
keys, so the candidate list itself is an admissible ranking. -/

/-- Article `i` of the oversized fixture. -/
def mkBig (i : Nat) : Article :=
  ⟨i, "big", "T", ArticleStatus.published, none, false⟩

def bigArticles : List Article := (List.range 51).map mkBig

def bigSt : SearchState := ⟨bigArticles, [], none⟩

lemma passes_filter_wSignals (q : String) (a : Article) :
    passes_filter wSignals q a = true := by
  norm_num [passes_filter, wSignals]

lemma mem_bigArticles {a : Article} (ha : a ∈ bigArticles) :
    a.status = ArticleStatus.published ∧ a.published_at = none
      ∧ a.is_editor_pick = false := by
  simp only [bigArticles, List.mem_map] at ha
  rcases ha with ⟨i, _, rfl⟩
  exact ⟨rfl, rfl, rfl⟩

lemma bigCandidates :
    searchCandidates wSignals "q" bigArticles = bigArticles := by
  unfold searchCandidates publishedArticles
  rw [List.filter_eq_self.mpr, List.filter_eq_self.mpr]
  · intro a ha
    simp [(mem_bigArticles ha).1]
  · intro a ha
    have ha' : a ∈ bigArticles := List.mem_filter.mp ha |>.1
    exact passes_filter_wSignals "q" a

lemma bigRanking : IsSearchRanking wSignals "q" [] 0 bigArticles bigArticles := by
  constructor
  · rw [bigCandidates]
  · refine List.pairwise_of_forall_mem_list ?_
    intro a ha b hb
    rcases mem_bigArticles ha with ⟨-, hpa, hea⟩
    rcases mem_bigArticles hb with ⟨-, hpb, heb⟩
    exact orderedBefore_null "q" [] 0 a b hpa hea hpb heb

/-- The 50 cached ids of the oversized fixture: the 50-entry prefix of
`bigArticles.map Article.id`, i.e. ids 0 through 49, leaving id 50 out. -/
def bigIds : List Nat := (bigArticles.map Article.id).take 50

/-- Claim C2 fails on the code for cache-hit requests: with 51
gate-passing published candidates, the populating request caches only 50
ids, and a second request with the same key 30 s later (inside the 60 s
TTL) rehydrates just those 50, so the published article `mkBig 50`, whose
lexical rank 1 passes the `base_rank >= 0.05` gate, is absent from that
result. -/
theorem search_membership_gate_counterexample :
    IsSearchResult wSignals bigSt 0 "q" bigArticles (cachePut bigIds 0 60)
    ∧ IsSearchResult wSignals ⟨bigSt.articles, [], cachePut bigIds 0 60⟩ 30
        "q" (searchHitResult bigArticles bigIds) (cachePut bigIds 0 60)
    ∧ mkBig 50 ∈ bigSt.articles
    ∧ (mkBig 50).status = ArticleStatus.published
    ∧ (0.05 : ℚ) ≤ wSignals.base_rank "q" (mkBig 50)
    ∧ mkBig 50 ∉ searchHitResult bigArticles bigIds := by
  refine ⟨Or.inr ⟨by decide, Or.inr ⟨Or.inl rfl, bigArticles, bigArticles,
      bigRanking, bigRanking, rfl, rfl⟩⟩,
    Or.inr ⟨by decide, Or.inl ⟨bigIds, by decide, by decide, rfl, rfl⟩⟩,
    by decide, rfl, by norm_num [wSignals], ?_⟩
  intro hmem
  simp only [searchHitResult, List.mem_filterMap] at hmem
  rcases hmem with ⟨i, hi, hfind⟩
  have hid := List.find?_some hfind
  have hid' : ((mkBig 50).id == i) = true := hid
  have hi50 : (mkBig 50).id = i := by rwa [beq_iff_eq] at hid'
  rw [← hi50] at hi
  exact absurd hi (by decide)

/-- Claim C4 fails on the code: only the cached id list is truncated to
50; the queryset returned to the caller is the untruncated ranking, here
51 articles long. -/
theorem search_result_not_truncated_counterexample :
    IsSearchResult wSignals bigSt 0 "q" bigArticles
      (cachePut ((bigArticles.map Article.id).take 50) 0 60)
    ∧ 50 < bigArticles.length := by
  refine ⟨Or.inr ⟨by decide, Or.inr ⟨Or.inl rfl, bigArticles, bigArticles,
    bigRanking, bigRanking, rfl, rfl⟩⟩, ?_⟩
  simp [bigArticles]

/-- Claim C4 amended: on a cache miss with a non-empty query the id list
stored in the cache is the 50-entry prefix of an admissible ranking (so
at most 50 ids are cached, with a 60 s TTL); the list returned to the
caller is an untruncated ranking and may exceed 50 entries. -/
theorem search_cache_truncated_to_fifty (sg : Signals) (st : SearchState)
    (now : Int) (q : String) (out : List Article)
    (cache2 : Option (CacheEntry (List Nat)))
    (hq : q ≠ "") (hmiss : cacheGet st.cache now = none)
    (hres : IsSearchResult sg st now q out cache2) :
    ∃ ids, cache2 = cachePut ids now 60 ∧ ids.length ≤ 50
      ∧ ∃ r, IsSearchRanking sg q st.events now st.articles r
          ∧ ids = (r.map Article.id).take 50 := by
  rcases hres with ⟨hq0, _, _⟩ | ⟨_, hrest⟩
  · exact absurd hq0 hq
  · rcases hrest with ⟨ids, hids, _⟩ | ⟨_, r1, r2, _, hr2, _, hc⟩
    · rw [hmiss] at hids
      exact absurd hids (by simp)
    · exact ⟨(r2.map Article.id).take 50, hc, List.length_take_le _ _,
        r2, hr2, rfl⟩

/-- Closed instance of `search_cache_truncated_to_fifty` on the
one-article search state. -/
theorem search_cache_truncated_to_fifty_witness :
    ∃ ids, cachePut [1] 0 60 = cachePut ids 0 60 ∧ ids.length ≤ 50
      ∧ ∃ r, IsSearchRanking wSignals "ai" wSt.events 0 wSt.articles r
          ∧ ids = (r.map Article.id).take 50 :=
  search_cache_truncated_to_fifty wSignals wSt 0 "ai" [wArticle]
    (cachePut [1] 0 60) (by decide) rfl wSearchResult

lemma mem_publishedArticles {articles : List Article} {a : Article} :
    a ∈ publishedArticles articles
      ↔ a ∈ articles ∧ a.status = ArticleStatus.published := by
  simp [publishedArticles, List.mem_filter]

lemma mem_trendingQualifying {articles : List Article} {events : List Event}
    {now : Int} {a : Article} :
    a ∈ trendingQualifying articles events now
      ↔ a ∈ articles ∧ a.status = ArticleStatus.published
          ∧ 0 < views_24h events a.id now := by
  simp only [trendingQualifying, publishedArticles, List.mem_filter,
    decide_eq_true_eq, beq_iff_eq, and_assoc]

/-- Stale fixture: an archived article whose id is still cached under the
trending key. -/
def staleArt : Article :=
  ⟨7, "stale", "T", ArticleStatus.archived, none, false⟩

def staleSt : TrendingState := ⟨[staleArt], [], some ⟨[7], 0, 300⟩⟩

/-- Claim C5 fails on the code: within the 300 s TTL the public trending
endpoint returns the cached payload verbatim, so an article archived
after the cache was populated is still returned although its status is
no longer `published`.  (Both search paths and the trending miss path do
restrict to currently published articles.) -/
theorem trending_stale_status_counterexample :
    IsTrendingResult staleSt 100 none (TrendingOutcome.ok [7] staleSt.cache)
    ∧ staleSt.articles = [staleArt]
    ∧ staleArt.id = 7
    ∧ staleArt.status ≠ ArticleStatus.published := by
  exact ⟨Or.inl ⟨[7], by decide, rfl⟩, rfl, rfl, by decide⟩

/-- Claim C5 amended: every search request (cache hit, cache miss, or
empty query) returns only currently published articles, and a trending
request computed on a cache miss returns only ids of currently published
articles; the trending cache-hit path returns the cached ids without
re-checking status, so they are only guaranteed to have been published
when the cached result was computed. -/
theorem search_and_trending_published_only :
    (∀ (sg : Signals) (st : SearchState) (now : Int) (q : String)
        (out : List Article) (cache2 : Option (CacheEntry (List Nat))),
        IsSearchResult sg st now q out cache2 →
        ∀ a ∈ out, a.status = ArticleStatus.published)
    ∧ (∀ (st : TrendingState) (now : Int) (p : Option String)
        (out : List Nat) (cache2 : Option (CacheEntry (List Nat))),
        cacheGet st.cache now = none →
        IsTrendingResult st now p (TrendingOutcome.ok out cache2) →
        ∀ i ∈ out, ∃ a, a ∈ st.articles ∧ a.id = i
          ∧ a.status = ArticleStatus.published) := by
  constructor
  · intro sg st now q out cache2 hres a ha
    rcases hres with ⟨-, hout, -⟩ | ⟨-, hrest⟩
    · rw [hout] at ha
      exact absurd ha (by simp)
    · rcases hrest with ⟨ids, -, -, hout, -⟩ | ⟨-, r1, -, hr1, -, hout, -⟩
      · rw [hout] at ha
        simp only [searchHitResult, List.mem_filterMap] at ha
        rcases ha with ⟨i, -, hfind⟩
        exact (mem_publishedArticles.mp (List.mem_of_find?_eq_some hfind)).2
      · rw [hout] at ha
        have hcand := hr1.1.subset ha
        simp only [searchCandidates] at hcand
        exact (mem_publishedArticles.mp (List.mem_filter.mp hcand).1).2
  · intro st now p out cache2 hmiss hres i hi
    rcases hres with ⟨v, hv, -⟩ | ⟨-, hrest⟩
    · rw [hmiss] at hv
      exact absurd hv (by simp)
    · rcases hrest with ⟨-, hoc⟩ | ⟨l, -, ⟨-, hoc⟩ | ⟨-, full, hfull, hoc⟩⟩
      · exact absurd hoc (by simp)
      · exact absurd hoc (by simp)
      · have hout : out = (full.take l.toNat).map Article.id := by
          injection hoc with h1 h2
        rw [hout] at hi
        rcases List.mem_map.mp hi with ⟨a, hmem, rfl⟩
        have hfa : a ∈ full := List.take_subset _ _ hmem
        have := hfull.1.subset hfa
        rcases mem_trendingQualifying.mp this with ⟨hart, hpub, -⟩
        exact ⟨a, hart, rfl, hpub⟩

/-- Closed instance of `search_and_trending_published_only` at the
one-article search fixture. -/
theorem search_and_trending_published_only_witness :
    wArticle.status = ArticleStatus.published :=
  search_and_trending_published_only.1 wSignals wSt 0 "ai" [wArticle]
    (cachePut [1] 0 60) wSearchResult wArticle (by simp)

/-- Trending fixture: an empty article table with a still-valid cached
list of two ids. -/
def hitSt : TrendingState := ⟨[], [], some ⟨[1, 2], 0, 300⟩⟩

/-- Claim C6 fails on the code: within the TTL the cached list is
returned verbatim before the limit is even parsed, so a request with
`limit=1` receives the full cached payload (here two ids, and even with
no published article at all in the current table). -/
theorem trending_hit_ignores_limit_counterexample :
    IsTrendingResult hitSt 100 (some "1") (TrendingOutcome.ok [1, 2] hitSt.cache)
    ∧ trendingLimit (some "1") = some 1
    ∧ hitSt.articles = []
    ∧ 1 < ([1, 2] : List Nat).length := by
  exact ⟨Or.inl ⟨[1, 2], by decide, rfl⟩, by decide, rfl, by decide⟩

lemma trendingLimit_le_20 {p : Option String} {l : Int}
    (hl : trendingLimit p = some l) : l ≤ 20 := by
  cases p with
  | none =>
    rw [show trendingLimit none = some 10 from by decide] at hl
    have h10 : l = 10 := by
      injection hl with h
      exact h.symm
    rw [h10]
    decide
  | some s =>
    simp only [trendingLimit] at hl
    rcases h : pyParseInt s with - | n
    · rw [h] at hl
      exact absurd hl (by simp)
    · rw [h] at hl
      have hmin : n ⊓ 20 = l := by simpa using hl
      exact hmin ▸ min_le_right n 20

/-- Claim C6 amended: a public trending request computed on a cache miss
with a parsable limit returns the ids of the top `min(limit, 20)` rows of
an admissible ordering of the published articles with nonzero 24-hour
pageview count (views descending, then `published_at` descending), caches
exactly that list for 300 s, and the default limit when the parameter is
absent is 10; a cache-hit request instead returns the cached list
regardless of its own limit. -/
theorem trending_miss_result_spec (st : TrendingState) (now : Int)
    (p : Option String) (out : List Nat)
    (cache2 : Option (CacheEntry (List Nat)))
    (hmiss : cacheGet st.cache now = none)
    (l : Int) (hl : trendingLimit p = some l)
    (hres : IsTrendingResult st now p (TrendingOutcome.ok out cache2)) :
    trendingLimit none = some 10
    ∧ l ≤ 20
    ∧ out.length ≤ l.toNat
    ∧ cache2 = cachePut out now 300
    ∧ ∃ full, IsTrendingRanking st.articles st.events now full
        ∧ out = (full.take l.toNat).map Article.id := by
  rcases hres with ⟨v, hv, -⟩ | ⟨-, ⟨hparse, -⟩ | ⟨l', hl', hneg | hpos⟩⟩
  · rw [hmiss] at hv
    exact absurd hv (by simp)
  · rw [hparse] at hl
    exact absurd hl (by simp)
  · exact absurd hneg.2 (by simp)
  · rw [hl] at hl'
    have hll : l' = l := by
      injection hl' with h
      exact h.symm
    subst hll
    rcases hpos with ⟨-, full, hfull, hoc⟩
    have hout : out = (full.take l'.toNat).map Article.id := by
      injection hoc
    have hcache : cache2 = cachePut ((full.take l'.toNat).map Article.id)
        now 300 := by
      injection hoc
    refine ⟨by decide, trendingLimit_le_20 hl, ?_, ?_, full, hfull, hout⟩
    · rw [hout, List.length_map]
      exact List.length_take_le _ _
    · rw [hcache, hout]

/-- Witness fixture for the trending miss path: one published article
with one pageview event inside the 24-hour window. -/
def tArt : Article :=
  ⟨5, "hot", "T", ArticleStatus.published, none, false⟩

def tEv : Event := ⟨5, EventKind.pageview, 0⟩

def tSt : TrendingState := ⟨[tArt], [tEv], none⟩

lemma tRanking : IsTrendingRanking [tArt] [tEv] 0 [tArt] := by
  exact ⟨by decide, by decide⟩

/-- Closed instance of `trending_miss_result_spec` at `tSt` with the
limit parameter absent. -/
theorem trending_miss_result_spec_witness :
    trendingLimit none = some 10
    ∧ (10 : Int) ≤ 20
    ∧ ([5] : List Nat).length ≤ (10 : Int).toNat
    ∧ cachePut [5] 0 300 = cachePut ([5] : List Nat) 0 300
    ∧ ∃ full, IsTrendingRanking tSt.articles tSt.events 0 full
        ∧ ([5] : List Nat) = (full.take (10 : Int).toNat).map Article.id :=
  trending_miss_result_spec tSt 0 none [5] (cachePut [5] 0 300) rfl 10
    (by decide)
    (Or.inr ⟨rfl, Or.inr ⟨10, by decide, Or.inr ⟨by decide, [tArt],
      tRanking, by decide⟩⟩⟩)

/-- Claim C7: a pageview or read ingestion call whose slug has no
currently published article is rejected and leaves the event store
unchanged, and an article with no events keeps a zero 24-hour pageview
count after the rejected call. -/
theorem ingestion_rejects_unpublished (articles : List Article)
    (events : List Event) (slug : String) (now : Int)
    (hnone : ∀ a ∈ articles, a.slug = slug →
      a.status ≠ ArticleStatus.published) :
    (recordPageview articles events slug now).accepted = false
    ∧ (recordPageview articles events slug now).events = events
    ∧ (recordRead articles events slug now).accepted = false
    ∧ (recordRead articles events slug now).events = events
    ∧ ∀ aid, (∀ e ∈ events, e.article_id ≠ aid) →
        views_24h (recordPageview articles events slug now).events aid now
          = 0 := by
  have hfind : findPublishedBySlug articles slug = none := by
    rw [findPublishedBySlug, List.find?_eq_none]
    intro a ha hcontra
    simp only [Bool.and_eq_true, beq_iff_eq] at hcontra
    exact hnone a ha hcontra.1 hcontra.2
  refine ⟨by simp [recordPageview, hfind], by simp [recordPageview, hfind],
    by simp [recordRead, hfind], by simp [recordRead, hfind], ?_⟩
  intro aid hno
  simp only [recordPageview, hfind]
  rw [views_24h, List.length_eq_zero, List.filter_eq_nil_iff]
  intro e he
  simp [hno e he]

/-- Closed instance of `ingestion_rejects_unpublished` on the
`"draft-only"` scenario. -/
def dArt : Article :=
  ⟨9, "draft-only", "D", ArticleStatus.draft, none, false⟩

theorem ingestion_rejects_unpublished_witness :
    (recordPageview [dArt] [] "draft-only" 0).accepted = false
    ∧ (recordPageview [dArt] [] "draft-only" 0).events = []
    ∧ (recordRead [dArt] [] "draft-only" 0).accepted = false
    ∧ (recordRead [dArt] [] "draft-only" 0).events = []
    ∧ ∀ aid, (∀ e ∈ ([] : List Event), e.article_id ≠ aid) →
        views_24h (recordPageview [dArt] [] "draft-only" 0).events aid 0
          = 0 :=
  ingestion_rejects_unpublished [dArt] [] "draft-only" 0 (by decide)

/-- Trending state with an empty cache and no articles, used for the
malformed-limit behaviour. -/
def missBadSt : TrendingState := ⟨[], [], none⟩

/-- Claim C8 fails on the code: on a cache miss, `int("abc")` raises
before any fallback, so the request errors; the lenient outcome the
claim describes (default limit 10, empty result cached) is not an
admissible behaviour. -/
theorem trending_malformed_limit_counterexample :
    IsTrendingResult missBadSt 0 (some "abc") TrendingOutcome.error
    ∧ ¬ IsTrendingResult missBadSt 0 (some "abc")
        (TrendingOutcome.ok [] (cachePut [] 0 300)) := by
  constructor
  · exact Or.inr ⟨rfl, Or.inl ⟨by decide, rfl⟩⟩
  · rintro (⟨v, hv, -⟩ | ⟨-, ⟨-, hoc⟩ | ⟨l, hl, -⟩⟩)
    · exact absurd hv (by simp [missBadSt, cacheGet])
    · exact absurd hoc (by simp)
    · rw [show trendingLimit (some "abc") = none from by decide] at hl
      exact absurd hl (by simp)

/-- On a trending cache hit the cached list is returned unchanged,
whatever the limit parameter holds. -/
lemma trendingResult_hit (st : TrendingState) (now : Int)
    (p : Option String) (v : List Nat) (oc : TrendingOutcome)
    (hv : cacheGet st.cache now = some v)
    (h : IsTrendingResult st now p oc) :
    oc = TrendingOutcome.ok v st.cache := by
  rcases h with ⟨v', hv', hoc⟩ | ⟨hmiss, -⟩
  · rw [hv] at hv'
    have : v' = v := by
      injection hv' with h
      exact h.symm
    rw [hoc, this]
  · rw [hv] at hmiss
    exact absurd hmiss (by simp)

/-- Claim C8 amended: a non-numeric limit is only reached on the
cache-miss path, where `int()` raises and the request fails (no fallback
to 10); on a cache-hit path the limit parameter is never parsed, so the
request succeeds with the cached list. -/
theorem trending_malformed_limit_behaviour :
    (∀ (st : TrendingState) (now : Int) (s : String) (oc : TrendingOutcome),
        cacheGet st.cache now = none → pyParseInt s = none →
        IsTrendingResult st now (some s) oc → oc = TrendingOutcome.error)
    ∧ (∀ (st : TrendingState) (now : Int) (s : String) (v : List Nat)
        (oc : TrendingOutcome),
        cacheGet st.cache now = some v →
        IsTrendingResult st now (some s) oc →
        oc = TrendingOutcome.ok v st.cache) := by
  constructor
  · intro st now s oc hmiss hparse hres
    rcases hres with ⟨v, hv, -⟩ | ⟨-, ⟨-, hoc⟩ | ⟨l, hl, -⟩⟩
    · rw [hmiss] at hv
      exact absurd hv (by simp)
    · exact hoc
    · rw [trendingLimit, hparse] at hl
      exact absurd hl (by simp)
  · intro st now s v oc hv hres
    exact trendingResult_hit st now (some s) v oc hv hres

/-- Closed instance of `trending_malformed_limit_behaviour` at the
`"abc"` limit. -/
theorem trending_malformed_limit_behaviour_witness :
    TrendingOutcome.error = TrendingOutcome.error :=
  trending_malformed_limit_behaviour.1 missBadSt 0 "abc"
    TrendingOutcome.error rfl (by decide)
    (Or.inr ⟨rfl, Or.inl ⟨by decide, rfl⟩⟩)

/-- Claim C10: the public trending cache key is the fixed constant
`"public:trending:24h"`; while an entry is live, every request receives
the cached list exactly as stored, whatever limit parameter it supplies
(here two simultaneous requests with different limit parameters). -/
theorem trending_cache_hit_fixed_key (st : TrendingState) (now : Int)
    (p1 p2 : Option String) (v : List Nat) (oc1 oc2 : TrendingOutcome)
    (hv : cacheGet st.cache now = some v)
    (h1 : IsTrendingResult st now p1 oc1)
    (h2 : IsTrendingResult st now p2 oc2) :
    oc1 = TrendingOutcome.ok v st.cache
      ∧ oc2 = TrendingOutcome.ok v st.cache :=
  ⟨trendingResult_hit st now p1 v oc1 hv h1,
    trendingResult_hit st now p2 v oc2 hv h2⟩

/-- Closed instance of `trending_cache_hit_fixed_key` with limits absent
and `"5"`. -/
theorem trending_cache_hit_fixed_key_witness :
    TrendingOutcome.ok [1, 2] hitSt.cache = TrendingOutcome.ok [1, 2] hitSt.cache
      ∧ TrendingOutcome.ok [1, 2] hitSt.cache
          = TrendingOutcome.ok [1, 2] hitSt.cache :=
  trending_cache_hit_fixed_key hitSt 100 none (some "5") [1, 2]
    (TrendingOutcome.ok [1, 2] hitSt.cache)
    (TrendingOutcome.ok [1, 2] hitSt.cache) (by decide)
    (Or.inl ⟨[1, 2], by decide, rfl⟩) (Or.inl ⟨[1, 2], by decide, rfl⟩)

lemma find?_id (l : List Article) (a : Article)
    (hnodup : (l.map Article.id).Nodup) (ha : a ∈ l) :
    l.find? (fun x => x.id == a.id) = some a := by
  induction l with
  | nil => exact absurd ha (by simp)
  | cons b t ih =>
    rw [List.map_cons, List.nodup_cons] at hnodup
    rcases hnodup with ⟨hhead, htail⟩
    rcases List.mem_cons.mp ha with rfl | hat
    · exact List.find?_cons_of_pos _ (by simp)
    · have hbid : (b.id == a.id) = false := by
        rw [beq_eq_false_iff_ne]
        intro hcontra
        exact hhead (hcontra ▸ List.mem_map_of_mem Article.id hat)
      rw [List.find?_cons_of_neg _ (by simp [hbid])]
      exact ih htail hat

lemma filterMap_eq_self {α : Type} (f : α → Option α) :
    ∀ (l : List α), (∀ a ∈ l, f a = some a) → l.filterMap f = l := by
  intro l
  induction l with
  | nil => intro _; rfl
  | cons a t ih =>
    intro h
    rw [List.filterMap_cons_some (h a (List.mem_cons_self a t)),
      ih fun x hx => h x (List.mem_cons_of_mem _ hx)]

/-- Rehydrating the cached ids of a list of published articles through
the hit path reproduces the list, provided article ids are unique. -/
lemma searchHitResult_map_id (articles : List Article) (l : List Article)
    (hnodup : (articles.map Article.id).Nodup)
    (hsub : ∀ a ∈ l, a ∈ publishedArticles articles) :
    searchHitResult articles (l.map Article.id) = l := by
  rw [searchHitResult, List.filterMap_map]
  apply filterMap_eq_self
  intro a ha
  exact find?_id _ a
    (((List.filter_sublist articles).map Article.id).nodup hnodup)
    (hsub a ha)

/-- Search state for the idempotence counterexample: the two fully tied
candidates of `cA1`/`cA2`, empty cache. -/
def st9 : SearchState := ⟨[cA1, cA2], [], none⟩

/-- Claim C9 fails on the code for the search path: the cached id list
(`values_list[:50]`) is a separate queryset evaluation from the returned
one, so with two candidates fully tied on score and `published_at` the
first request may return them in one order while caching the other; the
second request (same key, 30 s later, inside the 60 s TTL) then serves
the cached order, which differs. -/
theorem cache_idempotence_counterexample :
    IsSearchResult wSignals st9 0 "ai" [cA2, cA1] (cachePut [1, 2] 0 60)
    ∧ IsSearchResult wSignals ⟨st9.articles, [], cachePut [1, 2] 0 60⟩ 30
        "ai" [cA1, cA2] (cachePut [1, 2] 0 60)
    ∧ ([cA2, cA1] : List Article) ≠ [cA1, cA2] := by
  refine ⟨Or.inr ⟨by decide, Or.inr ⟨Or.inl rfl, [cA2, cA1], [cA1, cA2],
      cRanking21, cRanking12, rfl, rfl⟩⟩,
    Or.inr ⟨by decide, Or.inl ⟨[1, 2], by decide, by decide, by decide,
      rfl⟩⟩,
    by simp [cA1, cA2]⟩

/-- Claim C9 amended: trending requests within the 300 s TTL of the
populating computation always return the identical cached list, whatever
the current articles, events, or limit parameter; search requests with
the same normalized key within the 60 s TTL return the same ordered
identifier list provided the first (populating) computation had at most
50 surviving candidates, no two candidates tied on both score and
`published_at`, article ids are unique, and article rows are unchanged
(popularity counts may change freely: the hit path reads neither the
events nor the scores). -/
theorem cache_idempotence_amended :
    (∀ (sg : Signals) (st : SearchState) (now1 now2 : Int) (q1 q2 : String)
        (events2 : List Event) (out1 out2 : List Article)
        (c2 c3 : Option (CacheEntry (List Nat))),
        q1 ≠ "" → q2 ≠ "" → searchCacheKey q1 = searchCacheKey q2 →
        (st.articles.map Article.id).Nodup →
        cacheGet st.cache now1 = none →
        searchCandidates sg q1 st.articles ≠ [] →
        (searchCandidates sg q1 st.articles).length ≤ 50 →
        (∀ a ∈ searchCandidates sg q1 st.articles,
          ∀ b ∈ searchCandidates sg q1 st.articles,
            score sg q1 st.events now1 a = score sg q1 st.events now1 b →
            a.published_at = b.published_at → a = b) →
        IsSearchResult sg st now1 q1 out1 c2 →
        now2 < now1 + 60 →
        IsSearchResult sg ⟨st.articles, events2, c2⟩ now2 q2 out2 c3 →
        out2 = out1)
    ∧ (∀ (st : TrendingState) (now1 now2 : Int) (p1 p2 : Option String)
        (articles2 : List Article) (events2 : List Event)
        (out1 : List Nat) (c2 : Option (CacheEntry (List Nat)))
        (oc2 : TrendingOutcome),
        cacheGet st.cache now1 = none →
        IsTrendingResult st now1 p1 (TrendingOutcome.ok out1 c2) →
        now2 < now1 + 300 →
        IsTrendingResult ⟨articles2, events2, c2⟩ now2 p2 oc2 →
        oc2 = TrendingOutcome.ok out1 c2) := by
  constructor
  · intro sg st now1 now2 q1 q2 events2 out1 out2 c2 c3 hq1 hq2 _ hnodup
      hmiss hne hlen hkeys hres1 httl hres2
    rcases hres1 with ⟨hq0, -, -⟩ | ⟨-, hrest⟩
    · exact absurd hq0 hq1
    rcases hrest with ⟨ids, hids, -⟩ | ⟨-, r1, r2, hr1, hr2, hout1, hc2⟩
    · rw [hmiss] at hids
      exact absurd hids (by simp)
    have hr12 : r1 = r2 :=
      searchRanking_unique sg q1 st.events now1 st.articles r1 r2 hkeys
        hr1 hr2
    have hlen1 : (r1.map Article.id).length ≤ 50 := by
      rw [List.length_map, hr1.1.length_eq]
      exact hlen
    have hids_eq : (r2.map Article.id).take 50 = r1.map Article.id := by
      rw [← hr12]
      exact List.take_of_length_le hlen1
    have hne1 : r1.map Article.id ≠ [] := by
      intro hcontra
      apply hne
      have : r1 = [] := by
        cases r1 with
        | nil => rfl
        | cons x xs => exact absurd hcontra (by simp)
      rw [this] at hr1
      exact hr1.1.nil_eq.symm
    have hc2' : c2 = cachePut (r1.map Article.id) now1 60 := by
      rw [hc2, hids_eq]
    have hget2 : cacheGet c2 now2 = some (r1.map Article.id) := by
      rw [hc2', cachePut, cacheGet]
      simp only [if_pos httl]
    rcases hres2 with ⟨hq0, -, -⟩ | ⟨-, hrest2⟩
    · exact absurd hq0 hq2
    rcases hrest2 with ⟨ids2, hids2, -, hout2, -⟩ | ⟨hmiss2, -⟩
    · have hids2' : ids2 = r1.map Article.id := by
        rw [hget2] at hids2
        injection hids2 with h
        exact h.symm
      have hsub : ∀ a ∈ r1, a ∈ publishedArticles st.articles := by
        intro a haa
        have hcand := hr1.1.subset haa
        simp only [searchCandidates] at hcand
        exact (List.mem_filter.mp hcand).1
      rw [hout2, hids2', hout1]
      exact searchHitResult_map_id st.articles r1 hnodup hsub
    · rcases hmiss2 with hnone | hnil
      · rw [hget2] at hnone
        exact absurd hnone (by simp)
      · rw [hget2] at hnil
        exact absurd (Option.some.inj hnil) hne1
  · intro st now1 now2 p1 p2 articles2 events2 out1 c2 oc2 hmiss hres1
      httl hres2
    rcases hres1 with ⟨v, hv, -⟩ | ⟨-, ⟨-, hoc⟩ | ⟨l, -, ⟨-, hoc⟩ | hpos⟩⟩
    · rw [hmiss] at hv
      exact absurd hv (by simp)
    · exact absurd hoc (by simp)
    · exact absurd hoc (by simp)
    · rcases hpos with ⟨-, full, -, hoc⟩
      have hout1 : out1 = (full.take l.toNat).map Article.id := by
        injection hoc
      have hc2 : c2 = cachePut ((full.take l.toNat).map Article.id)
          now1 300 := by
        injection hoc
      have hget2 : cacheGet c2 now2 = some out1 := by
        rw [hc2, ← hout1, cachePut, cacheGet]
        simp only [if_pos httl]
      exact trendingResult_hit _ now2 p2 out1 oc2 hget2 hres2

/-- Closed instance of `cache_idempotence_amended` (search part) at the
one-article fixture, with the second request 30 s after the first. -/
theorem cache_idempotence_amended_witness :
    ([wArticle] : List Article) = [wArticle] :=
  cache_idempotence_amended.1 wSignals wSt 0 30 "ai" "ai" [] [wArticle]
    [wArticle] (cachePut [1] 0 60) (cachePut [1] 0 60)
    (by decide) (by decide) rfl (by decide) rfl
    (by simp [wSt, wCandidates_eq])
    (by simp [wSt, wCandidates_eq])
    (by
      intro a ha b hb _ _
      rw [show wSt.articles = [wArticle] from rfl, wCandidates_eq] at ha hb
      simp only [List.mem_singleton] at ha hb
      rw [ha, hb])
    wSearchResult (by decide)
    (Or.inr ⟨by decide, Or.inl ⟨[1], by decide, by decide, by decide, rfl⟩⟩)

end CommonStrange
